import Mathlib

/-!
Verification development for the backtesting simulation engine
(`src/utils/backtesting_engine.py`, class `AdvancedBacktester`).

The engine is embedded shallowly over exact rationals (`ℚ`):

* a pandas DataFrame row becomes a `Bar` (only the `timestamp` and `close`
  columns are ever read by the engine — the stop/take-profit check compares
  the bar's close price only, never the high/low);
* the mutable attributes of the `AdvancedBacktester` object
  (`trades`, `equity_curve`, `drawdown_curve`, `daily_returns`,
  `current_capital`, `peak_capital`, `open_positions`) become an explicit
  `EngineState` threaded through the functions;
* the strategy and the indicator calculator are function-valued parameters
  returning `Except String _`: a `.error` models a raised Python exception,
  and — matching the source, which has no try/except around the per-bar
  calls — errors propagate through the simulation loop's `Except` monad;
* `self.commission = 0.001` and `self.slippage = 0.0005` are the fixed
  instance attributes of the source constructor;
* the float operations `np.sqrt` and `**` that occur only inside the
  metrics computation have no exact rational counterpart, so
  `calculate_metrics` takes them as explicit function parameters
  (`fsqrt`, `fpow`); every theorem below quantifies over them, and the
  float infinities produced by `profit_factor`/`payoff_ratio` are modelled
  by `WithTop ℚ`.
-/

/-- One row of the historical OHLCV DataFrame.  The engine reads only the
`timestamp` (modelled as rational seconds) and `close` columns. -/
structure Bar where
  timestamp : ℚ
  close : ℚ
deriving DecidableEq, Repr, Inhabited

/-- The dict returned by `strategy.generate_signal`: keys `signal`
(`'BUY'`/`'SELL'`/`'HOLD'`), `confidence` and `strategy`. -/
structure SignalData where
  signal : String
  confidence : ℚ
  strategy : String
deriving DecidableEq, Repr, Inhabited

/-- The indicator dict returned by `calculate_all_indicators`; the engine
only ever reads the `'atr'` key (via `indicators.get('atr', ...)`), so the
model keeps just that optional entry. -/
structure Indicators where
  atr : Option ℚ
deriving DecidableEq, Repr, Inhabited

/-- Port of the `BacktestTrade` dataclass. -/
structure BacktestTrade where
  entry_time : ℚ
  exit_time : Option ℚ
  symbol : String
  side : String
  entry_price : ℚ
  exit_price : Option ℚ
  quantity : ℚ
  stop_loss : ℚ
  take_profit : ℚ
  pnl : Option ℚ
  pnl_pct : Option ℚ
  strategy : String
  status : String
  exit_reason : String
deriving DecidableEq, Repr, Inhabited

/-- The immutable construction parameter of `AdvancedBacktester.__init__`. -/
structure Backtester where
  initial_capital : ℚ := 10000
deriving DecidableEq, Repr, Inhabited

/-- `self.commission = 0.001` (0.1% per trade). -/
def commissionRate : ℚ := 1/1000

/-- `self.slippage = 0.0005` (0.05% slippage). -/
def slippageRate : ℚ := 1/2000

/-- The mutable attributes of the `AdvancedBacktester` object. -/
structure EngineState where
  trades : List BacktestTrade
  equity_curve : List ℚ
  drawdown_curve : List ℚ
  daily_returns : List ℚ
  current_capital : ℚ
  peak_capital : ℚ
  open_positions : List BacktestTrade
deriving DecidableEq, Repr, Inhabited

/-- The configuration dict: each field models one `config.get(key, default)`
with the source's default value. -/
structure Config where
  min_lookback_period : Nat := 50
  max_position_size : ℚ := 1/10
  atr_multiplier : ℚ := 2
  reward_risk_ratio : ℚ := 2
  symbol : String := "UNKNOWN"
deriving DecidableEq, Repr, Inhabited

/-- A strategy: `generate_signal(current_data, indicators)`; `.error`
models a raised exception. -/
abbrev StrategyFn := List Bar → Indicators → Except String SignalData

/-- The indicator calculator: `calculate_all_indicators(current_data,
config)`; `.error` models a raised exception. -/
abbrev IndicatorFn := List Bar → Config → Except String Indicators

/-- Port of `_initialize_backtest`: overwrites every mutable attribute of
the object, whatever its prior value. -/
def init_backtest (bt : Backtester) (prior : EngineState) : EngineState :=
  { prior with
    trades := []
    equity_curve := [bt.initial_capital]
    drawdown_curve := [0]
    daily_returns := []
    current_capital := bt.initial_capital
    peak_capital := bt.initial_capital
    open_positions := [] }

/-- Port of `_process_signal`. -/
def process_signal (cfg : Config) (signal_data : SignalData)
    (current_time current_price : ℚ) (indicators : Indicators)
    (st : EngineState) : EngineState :=
  let signal := signal_data.signal
  let confidence := signal_data.confidence
  let position_value := st.current_capital * cfg.max_position_size * confidence
  if position_value < 100 then st
  else
    let quantity := position_value / current_price
    let effective_price :=
      if signal = "BUY" then current_price * (1 + slippageRate)
      else current_price * (1 - slippageRate)
    let commission_cost := position_value * commissionRate
    let total_cost := position_value + commission_cost
    if total_cost > st.current_capital then st
    else
      let atr := indicators.atr.getD (current_price * (2/100))
      let stop_loss :=
        if signal = "BUY" then current_price - atr * cfg.atr_multiplier
        else current_price + atr * cfg.atr_multiplier
      let take_profit :=
        if signal = "BUY" then
          current_price + atr * cfg.atr_multiplier * cfg.reward_risk_ratio
        else current_price - atr * cfg.atr_multiplier * cfg.reward_risk_ratio
      let trade : BacktestTrade :=
        { entry_time := current_time
          exit_time := none
          symbol := cfg.symbol
          side := signal
          entry_price := effective_price
          exit_price := none
          quantity := quantity
          stop_loss := stop_loss
          take_profit := take_profit
          pnl := none
          pnl_pct := none
          strategy := signal_data.strategy
          status := "OPEN"
          exit_reason := "" }
      { st with
        current_capital := st.current_capital - total_cost
        open_positions := st.open_positions ++ [trade] }

/-- The stop-loss/take-profit check of `_update_open_positions` for one
position: returns the exit reason when the position should close. -/
def exitReasonFor (current_price : ℚ) (position : BacktestTrade) : Option String :=
  if position.side = "BUY" then
    if current_price ≤ position.stop_loss then some "STOP_LOSS"
    else if current_price ≥ position.take_profit then some "TAKE_PROFIT"
    else none
  else
    if current_price ≥ position.stop_loss then some "STOP_LOSS"
    else if current_price ≤ position.take_profit then some "TAKE_PROFIT"
    else none

/-- Slippage applied by `_close_position` (opposite direction from entry). -/
def effective_exit_price (position : BacktestTrade) (exit_price : ℚ) : ℚ :=
  if position.side = "BUY" then exit_price * (1 - slippageRate)
  else exit_price * (1 + slippageRate)

/-- Realized P&L computed by `_close_position`: directional price delta
times quantity, minus the exit commission. -/
def settledPnl (position : BacktestTrade) (eff : ℚ) : ℚ :=
  (if position.side = "BUY" then (eff - position.entry_price) * position.quantity
   else (position.entry_price - eff) * position.quantity)
  - position.quantity * eff * commissionRate

/-- The field updates `_close_position` applies to the position record. -/
def settledTrade (position : BacktestTrade) (exit_time exit_price : ℚ)
    (exit_reason : String) : BacktestTrade :=
  let eff := effective_exit_price position exit_price
  let pnl := settledPnl position eff
  { position with
    exit_time := some exit_time
    exit_price := some eff
    pnl := some pnl
    pnl_pct := some (pnl / (position.entry_price * position.quantity) * 100)
    status := "CLOSED"
    exit_reason := exit_reason }

/-- The capital credit of `_close_position`:
`quantity * effective_exit_price - commission_cost`. -/
def exitCredit (position : BacktestTrade) (exit_price : ℚ) : ℚ :=
  let eff := effective_exit_price position exit_price
  position.quantity * eff - position.quantity * eff * commissionRate

/-- Port of `_close_position` (close by index into the open-position list). -/
def close_position (st : EngineState) (position_index : Nat)
    (exit_time exit_price : ℚ) (exit_reason : String) : EngineState :=
  match st.open_positions.get? position_index with
  | none => st
  | some position =>
      { st with
        current_capital := st.current_capital + exitCredit position exit_price
        trades := st.trades ++ [settledTrade position exit_time exit_price exit_reason]
        open_positions := st.open_positions.eraseIdx position_index }

/-- The `positions_to_close` list collected by `_update_open_positions`:
`(index, exit_reason)` pairs in iteration (insertion) order. -/
def positionsToClose (current_price : ℚ) (positions : List BacktestTrade) :
    List (Nat × String) :=
  positions.enum.filterMap
    (fun p => (exitReasonFor current_price p.2).map (fun r => (p.1, r)))

/-- Port of `_update_open_positions`: the collected closures are applied in
reversed order, "reverse order to maintain indices". -/
def update_open_positions (current_time current_price : ℚ) (st : EngineState) :
    EngineState :=
  ((positionsToClose current_price st.open_positions).reverse).foldl
    (fun s pr => close_position s pr.1 current_time current_price pr.2) st

/-- Fuel-indexed unfolding of the `while self.open_positions:` loop of
`_close_all_positions`. -/
def closeAllGo (exit_time exit_price : ℚ) (exit_reason : String) :
    Nat → EngineState → EngineState
  | 0, st => st
  | n + 1, st =>
      if st.open_positions.isEmpty then st
      else closeAllGo exit_time exit_price exit_reason n
        (close_position st 0 exit_time exit_price exit_reason)

/-- Port of `_close_all_positions` (each closure shortens the open list by
one, so the list length is enough fuel). -/
def close_all_positions (exit_time exit_price : ℚ) (exit_reason : String)
    (st : EngineState) : EngineState :=
  closeAllGo exit_time exit_price exit_reason st.open_positions.length st

/-- Port of `_calculate_unrealized_pnl`. -/
def calculate_unrealized_pnl (current_price : ℚ) (st : EngineState) : ℚ :=
  st.open_positions.foldl
    (fun acc position =>
      acc + (if position.side = "BUY"
             then (current_price - position.entry_price) * position.quantity
             else (position.entry_price - current_price) * position.quantity))
    0

/-- The per-bar bookkeeping tail of the simulation loop (source lines
"Update equity curve" through "Calculate daily returns"): append the
equity sample `current_capital + unrealized_pnl`, raise the running peak,
append the drawdown sample, and append the per-bar return. -/
def bookkeepBar (current_price : ℚ) (st2 : EngineState) : EngineState :=
  let unrealized_pnl := calculate_unrealized_pnl current_price st2
  let current_equity := st2.current_capital + unrealized_pnl
  let st3 :=
    { st2 with
      equity_curve := st2.equity_curve ++ [current_equity]
      peak_capital :=
        if current_equity > st2.peak_capital then current_equity
        else st2.peak_capital }
  let drawdown := (st3.peak_capital - current_equity) / st3.peak_capital
  let st4 := { st3 with drawdown_curve := st3.drawdown_curve ++ [drawdown] }
  if 1 < st4.equity_curve.length then
    { st4 with
      daily_returns := st4.daily_returns ++
        [(st4.equity_curve.getLastD 0 - st4.equity_curve.dropLast.getLastD 0)
          / st4.equity_curve.dropLast.getLastD 0] }
  else st4

/-- One iteration of the `for i in range(lookback_period, len(data))` loop
of `_run_simulation`; an exception from the indicator calculator or the
strategy propagates (there is no try/except in the source). -/
def processBar (strategyF : StrategyFn) (indF : IndicatorFn) (cfg : Config)
    (bars : List Bar) (st : EngineState) (i : Nat) : Except String EngineState := do
  let bar := bars.getD i default
  let current_time := bar.timestamp
  let current_data := bars.take (i + 1)
  let current_price := bar.close
  let indicators ← indF current_data cfg
  let st1 := update_open_positions current_time current_price st
  let st2 ←
    if cfg.min_lookback_period ≤ current_data.length then do
      let signal_data ← strategyF current_data indicators
      pure (if signal_data.signal ∈ ["BUY", "SELL"] then
              process_signal cfg signal_data current_time current_price indicators st1
            else st1)
    else pure st1
  pure (bookkeepBar current_price st2)

/-- Port of `_run_simulation`: the main loop followed by
`_close_all_positions(data.iloc[-1]['timestamp'], data.iloc[-1]['close'],
'END_OF_DATA')`. -/
def run_simulation (strategyF : StrategyFn) (indF : IndicatorFn) (cfg : Config)
    (bars : List Bar) (st : EngineState) : Except String EngineState := do
  let lookback_period := cfg.min_lookback_period
  let stN ← (List.range' lookback_period (bars.length - lookback_period)).foldlM
    (processBar strategyF indF cfg bars) st
  let lastBar := bars.getLastD default
  pure (close_all_positions lastBar.timestamp lastBar.close "END_OF_DATA" stN)

/-- `np.mean` over a rational list (callers guard non-emptiness as in the
source). -/
def listMean (l : List ℚ) : ℚ := l.sum / l.length

/-- The population variance underlying `np.std` (`np.std l = sqrt
(listPVar l)`). -/
def listPVar (l : List ℚ) : ℚ :=
  listMean (l.map (fun x => (x - listMean l) * (x - listMean l)))

/-- `max` of a nonempty list as used on `self.drawdown_curve` and trade
pnl lists. -/
def listMax : List ℚ → ℚ
  | [] => 0
  | x :: xs => xs.foldl max x

/-- `min` of a nonempty list. -/
def listMin : List ℚ → ℚ
  | [] => 0
  | x :: xs => xs.foldl min x

/-- Port of `_calculate_consecutive_wins`/`_calculate_consecutive_losses`
(the accumulator is `(max_consecutive, current_consecutive)`). -/
def consecutiveCount (pred : BacktestTrade → Bool) (trades : List BacktestTrade) :
    Nat :=
  (trades.foldl
    (fun (acc : Nat × Nat) trade =>
      if pred trade then (max acc.1 (acc.2 + 1), acc.2 + 1) else (acc.1, 0))
    (0, 0)).1

/-- Port of the `BacktestMetrics` dataclass.  `profit_factor` and
`payoff_ratio` can be `float('inf')` in the source, modelled by
`WithTop ℚ`; trade counts are `Nat`. -/
structure BacktestMetrics where
  total_return : ℚ
  total_return_pct : ℚ
  annual_return_pct : ℚ
  max_drawdown : ℚ
  max_drawdown_pct : ℚ
  sharpe_ratio : ℚ
  sortino_ratio : ℚ
  calmar_ratio : ℚ
  win_rate : ℚ
  profit_factor : WithTop ℚ
  avg_win : ℚ
  avg_loss : ℚ
  max_win : ℚ
  max_loss : ℚ
  total_trades : Nat
  winning_trades : Nat
  losing_trades : Nat
  avg_trade_duration : ℚ
  avg_bars_in_trade : ℚ
  consecutive_wins : Nat
  consecutive_losses : Nat
  recovery_factor : ℚ
  payoff_ratio : WithTop ℚ
deriving DecidableEq, Inhabited

/-- Port of `_empty_metrics`: the all-zero record returned when no trades
were made. -/
def empty_metrics : BacktestMetrics :=
  { total_return := 0, total_return_pct := 0, annual_return_pct := 0
    max_drawdown := 0, max_drawdown_pct := 0, sharpe_ratio := 0
    sortino_ratio := 0, calmar_ratio := 0, win_rate := 0, profit_factor := 0
    avg_win := 0, avg_loss := 0, max_win := 0, max_loss := 0
    total_trades := 0, winning_trades := 0, losing_trades := 0
    avg_trade_duration := 0, avg_bars_in_trade := 0
    consecutive_wins := 0, consecutive_losses := 0
    recovery_factor := 0, payoff_ratio := 0 }

/-- Port of `_calculate_metrics`.  `fsqrt` and `fpow` stand for the float
operations `np.sqrt` and `**`, which have no exact rational embedding;
`np.std l` is rendered `fsqrt (listPVar l)`. -/
def calculate_metrics (bt : Backtester) (fsqrt : ℚ → ℚ) (fpow : ℚ → ℚ → ℚ)
    (data : List Bar) (st : EngineState) : BacktestMetrics :=
  if st.trades = [] then empty_metrics
  else
    let total_return := st.equity_curve.getLastD 0 - bt.initial_capital
    let total_return_pct := total_return / bt.initial_capital * 100
    let days : ℚ := data.length
    let years := days / (1461/4)
    let annual_return_pct :=
      if 0 < years then
        (fpow (st.equity_curve.getLastD 0 / bt.initial_capital) (1/years) - 1) * 100
      else 0
    let max_drawdown := listMax st.drawdown_curve
    let max_drawdown_pct := max_drawdown * 100
    let winning_trades := st.trades.filter (fun t => 0 < t.pnl.getD 0)
    let losing_trades := st.trades.filter (fun t => t.pnl.getD 0 < 0)
    let win_rate :=
      if st.trades = [] then 0
      else (winning_trades.length : ℚ) / st.trades.length * 100
    let avg_win :=
      if winning_trades = [] then 0
      else listMean (winning_trades.map (fun t => t.pnl.getD 0))
    let avg_loss :=
      if losing_trades = [] then 0
      else listMean (losing_trades.map (fun t => t.pnl.getD 0))
    let max_win :=
      if winning_trades = [] then 0
      else listMax (winning_trades.map (fun t => t.pnl.getD 0))
    let max_loss :=
      if losing_trades = [] then 0
      else listMin (losing_trades.map (fun t => t.pnl.getD 0))
    let profit_factor : WithTop ℚ :=
      if losing_trades = [] then ⊤
      else ((|(winning_trades.map (fun t => t.pnl.getD 0)).sum| /
             |(losing_trades.map (fun t => t.pnl.getD 0)).sum| : ℚ) : WithTop ℚ)
    let payoff_ratio : WithTop ℚ :=
      if avg_loss ≠ 0 then ((|avg_win / avg_loss| : ℚ) : WithTop ℚ) else ⊤
    let sharpe_ratio :=
      if st.daily_returns = [] then 0
      else
        let sd := fsqrt (listPVar st.daily_returns)
        if sd ≠ 0 then listMean st.daily_returns / sd * fsqrt 252 else 0
    let sortino_ratio :=
      if st.daily_returns = [] then 0
      else
        let downside := st.daily_returns.filter (fun r => r < 0)
        let downside_std := if downside = [] then 0 else fsqrt (listPVar downside)
        if downside_std ≠ 0 then
          listMean st.daily_returns / downside_std * fsqrt 252
        else 0
    let calmar_ratio :=
      if max_drawdown_pct ≠ 0 then annual_return_pct / max_drawdown_pct else 0
    let trade_durations :=
      st.trades.filterMap
        (fun t => t.exit_time.map (fun et => (et - t.entry_time) / 3600))
    let avg_trade_duration :=
      if trade_durations = [] then 0 else listMean trade_durations
    let avg_bars_in_trade := avg_trade_duration / 1
    let consecutive_wins := consecutiveCount (fun t => 0 < t.pnl.getD 0) st.trades
    let consecutive_losses := consecutiveCount (fun t => t.pnl.getD 0 < 0) st.trades
    let recovery_factor :=
      if max_drawdown_pct ≠ 0 then total_return_pct / max_drawdown_pct else 0
    { total_return := total_return
      total_return_pct := total_return_pct
      annual_return_pct := annual_return_pct
      max_drawdown := max_drawdown * bt.initial_capital
      max_drawdown_pct := max_drawdown_pct
      sharpe_ratio := sharpe_ratio
      sortino_ratio := sortino_ratio
      calmar_ratio := calmar_ratio
      win_rate := win_rate
      profit_factor := profit_factor
      avg_win := avg_win
      avg_loss := avg_loss
      max_win := max_win
      max_loss := max_loss
      total_trades := st.trades.length
      winning_trades := winning_trades.length
      losing_trades := losing_trades.length
      avg_trade_duration := avg_trade_duration
      avg_bars_in_trade := avg_bars_in_trade
      consecutive_wins := consecutive_wins
      consecutive_losses := consecutive_losses
      recovery_factor := recovery_factor
      payoff_ratio := payoff_ratio }

/-- The plain record produced by `_trade_to_dict`. -/
structure TradeDict where
  entry_time : ℚ
  exit_time : Option ℚ
  symbol : String
  side : String
  entry_price : ℚ
  exit_price : Option ℚ
  quantity : ℚ
  pnl : Option ℚ
  pnl_pct : Option ℚ
  strategy : String
  exit_reason : String
  duration_hours : Option ℚ
deriving DecidableEq, Repr, Inhabited

/-- Port of `_trade_to_dict`. -/
def trade_to_dict (t : BacktestTrade) : TradeDict :=
  { entry_time := t.entry_time
    exit_time := t.exit_time
    symbol := t.symbol
    side := t.side
    entry_price := t.entry_price
    exit_price := t.exit_price
    quantity := t.quantity
    pnl := t.pnl
    pnl_pct := t.pnl_pct
    strategy := t.strategy
    exit_reason := t.exit_reason
    duration_hours := t.exit_time.map (fun et => (et - t.entry_time) / 3600) }

/-- The `results` dict assembled by `run_backtest`. -/
structure BacktestResults where
  strategy_name : String
  period_start : ℚ
  period_end : ℚ
  total_days : Nat
  initial_capital : ℚ
  final_capital : ℚ
  metrics : BacktestMetrics
  trades : List TradeDict
  equity_curve : List ℚ
  drawdown_curve : List ℚ
  daily_returns : List ℚ
deriving DecidableEq, Inhabited

/-- Port of `_filter_data_by_date`. -/
def filter_data_by_date (data : List Bar) (start_date end_date : Option ℚ) :
    List Bar :=
  let d1 := match start_date with
    | some sdt => data.filter (fun b => sdt ≤ b.timestamp)
    | none => data
  match end_date with
  | some edt => d1.filter (fun b => b.timestamp ≤ edt)
  | none => d1

/-- Port of `run_backtest`: date filtering, the hard-coded
`len(data) < 100` precondition, initialization, simulation, metrics and
report assembly.  `prior` is the state of the object before the call
(`_initialize_backtest` overwrites it). -/
def run_backtest (bt : Backtester) (prior : EngineState) (strategy_name : String)
    (strategyF : StrategyFn) (indF : IndicatorFn) (fsqrt : ℚ → ℚ)
    (fpow : ℚ → ℚ → ℚ) (data0 : List Bar) (cfg : Config)
    (start_date end_date : Option ℚ) : Except String BacktestResults := do
  let data :=
    if start_date.isSome || end_date.isSome then
      filter_data_by_date data0 start_date end_date
    else data0
  if data.length < 100 then
    throw "Insufficient data for backtesting (minimum 100 data points required)"
  else
    let st0 := init_backtest bt prior
    let stF ← run_simulation strategyF indF cfg data st0
    let metrics := calculate_metrics bt fsqrt fpow data stF
    pure
      { strategy_name := strategy_name
        period_start := (data.getD 0 default).timestamp
        period_end := (data.getLastD default).timestamp
        total_days := data.length
        initial_capital := bt.initial_capital
        final_capital := stF.equity_curve.getLastD bt.initial_capital
        metrics := metrics
        trades := stF.trades.map trade_to_dict
        equity_curve := stF.equity_curve
        drawdown_curve := stF.drawdown_curve
        daily_returns := stF.daily_returns }

/-- A constant-price bar sequence with timestamps 0, 1, 2, ... -/
def constBars (n : Nat) (price : ℚ) : List Bar :=
  (List.range n).map (fun (k : Nat) => { timestamp := (k : ℚ), close := price })

/-- An indicator calculator that always succeeds with `atr = 2`. -/
def atr2Indicators : IndicatorFn := fun _ _ => .ok { atr := some 2 }

/-- A strategy that always returns HOLD. -/
def holdStrategy : StrategyFn :=
  fun _ _ => .ok { signal := "HOLD", confidence := 0, strategy := "Hold" }

/-- A strategy that returns BUY with confidence 1 exactly when the visible
prefix has length `m`, and HOLD otherwise. -/
def buyAtLen (m : Nat) : StrategyFn :=
  fun current_data _ =>
    .ok (if current_data.length = m then
          { signal := "BUY", confidence := 1, strategy := "BuyOnce" }
         else { signal := "HOLD", confidence := 0, strategy := "BuyOnce" })

/-- A strategy that raises on every invocation. -/
def failingStrategy (msg : String) : StrategyFn := fun _ _ => .error msg

/-- Sum of `f` over a trade list. -/
def sumBy (f : BacktestTrade → ℚ) (l : List BacktestTrade) : ℚ := (l.map f).sum

/-- The raw notional of a trade recovered from its recorded fields: the
entry debit of `_process_signal` is `position_value + commission`, and
`entry_price = raw_price * (1 ± slippage)` with
`quantity = position_value / raw_price`, so
`position_value = quantity * entry_price / (1 ± slippage)`. -/
def entryNotional (t : BacktestTrade) : ℚ :=
  if t.side = "BUY" then t.quantity * t.entry_price / (1 + slippageRate)
  else t.quantity * t.entry_price / (1 - slippageRate)

/-- The cash debited when the position was opened:
`total_cost = position_value + position_value * commission`. -/
def entryDebit (t : BacktestTrade) : ℚ := entryNotional t * (1 + commissionRate)

/-- The net cash flow of a closed trade: exit credit minus entry debit. -/
def netCashFlow (t : BacktestTrade) : ℚ :=
  t.quantity * t.exit_price.getD 0 * (1 - commissionRate) - entryDebit t

/-- Unrealized P&L of a single open position at `price` (one summand of
`_calculate_unrealized_pnl`). -/
def unrealOne (price : ℚ) (t : BacktestTrade) : ℚ :=
  if t.side = "BUY" then (price - t.entry_price) * t.quantity
  else (t.entry_price - price) * t.quantity

/-- The cash-ledger invariant the engine actually maintains: the current
capital is the initial capital plus the net cash flows of the closed
trades minus the entry debits of the still-open positions. -/
def CashInv (bt : Backtester) (st : EngineState) : Prop :=
  st.current_capital =
    bt.initial_capital + sumBy netCashFlow st.trades - sumBy entryDebit st.open_positions

/-- The simulation loop stopped after its first `k` iterations (bars
`lookback, ..., lookback + k - 1`). -/
def simUpTo (strategyF : StrategyFn) (indF : IndicatorFn) (cfg : Config)
    (bars : List Bar) (st0 : EngineState) (k : Nat) : Except String EngineState :=
  (List.range' cfg.min_lookback_period k).foldlM
    (processBar strategyF indF cfg bars) st0

/-- The capital-conservation property exactly as the specification states
it: for every run and every processed bar, the equity sample just recorded
equals the initial capital, plus the realized pnl of the trades closed at
or before that bar (the completed-trade list at that moment), plus the
unrealized pnl, at the bar's close price, of the positions still open. -/
def conservation_claim (bt : Backtester) (strategyF : StrategyFn)
    (indF : IndicatorFn) (cfg : Config) (bars : List Bar) : Prop :=
  ∀ (k : Nat) (st' : EngineState), cfg.min_lookback_period + k < bars.length →
    simUpTo strategyF indF cfg bars (init_backtest bt default) (k + 1) = .ok st' →
    st'.equity_curve.getLastD 0 =
      bt.initial_capital + sumBy (fun tr => tr.pnl.getD 0) st'.trades
        + sumBy (unrealOne (bars.getD (cfg.min_lookback_period + k) default).close)
            st'.open_positions

/-! ### List helper lemmas -/

lemma enumFrom_concat {α : Type} (a : α) (l : List α) (n : Nat) :
    List.enumFrom n (l ++ [a]) = List.enumFrom n l ++ [(n + l.length, a)] := by
  induction l generalizing n with
  | nil => simp
  | cons x xs ih =>
    simp [List.enumFrom, ih, Nat.add_assoc, Nat.add_comm 1 xs.length]

lemma enum_concat {α : Type} (a : α) (l : List α) :
    (l ++ [a]).enum = l.enum ++ [(l.length, a)] := by
  simpa [List.enum] using enumFrom_concat a l 0

lemma get?_append_cons {α : Type} (l : List α) (p : α) (suf : List α) :
    (l ++ p :: suf).get? l.length = some p := by
  induction l with
  | nil => rfl
  | cons x xs ih => simpa using ih

lemma eraseIdx_append_cons {α : Type} (l : List α) (p : α) (suf : List α) :
    (l ++ p :: suf).eraseIdx l.length = l ++ suf := by
  induction l with
  | nil => rfl
  | cons x xs ih => simpa using ih

lemma getD_append_left (l : List ℚ) (x d : ℚ) (h : l ≠ []) :
    (l ++ [x]).getD 0 d = l.getD 0 d := by
  cases l with
  | nil => simp at h
  | cons a as => simp

lemma mem_of_getD (bars : List Bar) (i : Nat) (h : i < bars.length) :
    bars.getD i default ∈ bars := by
  simp [List.getD_eq_getElem?_getD, List.getElem?_eq_getElem h]

/-! ### Sum helper lemmas -/

lemma sumBy_append (f : BacktestTrade → ℚ) (l1 l2 : List BacktestTrade) :
    sumBy f (l1 ++ l2) = sumBy f l1 + sumBy f l2 := by
  simp [sumBy]

lemma sumBy_eraseIdx (f : BacktestTrade → ℚ) :
    ∀ (l : List BacktestTrade) (i : Nat) (x : BacktestTrade),
      l.get? i = some x → sumBy f (l.eraseIdx i) = sumBy f l - f x := by
  intro l
  induction l with
  | nil => intro i x h; simp at h
  | cons a as ih =>
    intro i x h
    cases i with
    | zero =>
      simp at h
      subst h
      simp [sumBy]
    | succ j =>
      simp at h
      have h2 : as.get? j = some x := by simpa [List.get?_eq_getElem?] using h
      have := ih j x h2
      simp [sumBy] at this ⊢
      linarith [this]

lemma sumBy_sub (f g : BacktestTrade → ℚ) (l : List BacktestTrade) :
    sumBy (fun t => f t - g t) l = sumBy f l - sumBy g l := by
  induction l with
  | nil => simp [sumBy]
  | cons a as ih => simp [sumBy] at ih ⊢; linarith [ih]

lemma unrealized_eq_sumBy (price : ℚ) (st : EngineState) :
    calculate_unrealized_pnl price st = sumBy (unrealOne price) st.open_positions := by
  have h : ∀ (l : List BacktestTrade) (acc : ℚ),
      l.foldl (fun acc position =>
        acc + (if position.side = "BUY"
               then (price - position.entry_price) * position.quantity
               else (position.entry_price - price) * position.quantity)) acc
        = acc + sumBy (unrealOne price) l := by
    intro l
    induction l with
    | nil => intro acc; simp [sumBy]
    | cons a as ih =>
      intro acc
      simp [List.foldl, ih, sumBy, unrealOne]
      ring
  simpa [calculate_unrealized_pnl] using h st.open_positions 0

/-! ### Preservation of the cash-ledger invariant -/

lemma one_add_slippage_ne : (1 : ℚ) + slippageRate ≠ 0 := by
  norm_num [slippageRate]

lemma one_sub_slippage_ne : (1 : ℚ) - slippageRate ≠ 0 := by
  norm_num [slippageRate]

lemma entryDebit_settled (position : BacktestTrade) (t price : ℚ) (reason : String) :
    entryDebit (settledTrade position t price reason) = entryDebit position := by
  simp [entryDebit, entryNotional, settledTrade]

lemma cashInv_init (bt : Backtester) (prior : EngineState) :
    CashInv bt (init_backtest bt prior) := by
  simp [CashInv, init_backtest, sumBy]

lemma cashInv_process_signal (bt : Backtester) (cfg : Config) (sd : SignalData)
    (t price : ℚ) (ind : Indicators) (st : EngineState) (hp : price ≠ 0)
    (h : CashInv bt st) :
    CashInv bt (process_signal cfg sd t price ind st) := by
  have hs : (1 : ℚ) + slippageRate ≠ 0 := one_add_slippage_ne
  have hs2 : (1 : ℚ) - slippageRate ≠ 0 := one_sub_slippage_ne
  simp only [process_signal]
  split_ifs with h1 h2 hside
  · exact h
  · exact h
  · simp only [CashInv] at h ⊢
    simp only [sumBy_append]
    rw [h]
    simp [sumBy, entryDebit, entryNotional, hside]
    field_simp
    ring
  · simp only [CashInv] at h ⊢
    simp only [sumBy_append]
    rw [h]
    simp [sumBy, entryDebit, entryNotional, hside]
    field_simp
    ring

lemma cashInv_close_position (bt : Backtester) (st : EngineState) (idx : Nat)
    (t price : ℚ) (reason : String) (h : CashInv bt st) :
    CashInv bt (close_position st idx t price reason) := by
  rw [close_position]
  cases hget : st.open_positions.get? idx with
  | none => exact h
  | some position =>
    rw [CashInv] at h ⊢
    simp only [sumBy_append, sumBy_eraseIdx _ _ _ _ hget]
    rw [h]
    simp [sumBy, netCashFlow, settledTrade, exitCredit, entryDebit, entryNotional]
    ring

lemma cashInv_update (bt : Backtester) (t price : ℚ) (st : EngineState)
    (h : CashInv bt st) : CashInv bt (update_open_positions t price st) := by
  rw [update_open_positions]
  generalize (positionsToClose price st.open_positions).reverse = prs
  induction prs generalizing st with
  | nil => exact h
  | cons pr rest ih =>
    exact ih _ (cashInv_close_position bt st pr.1 t price pr.2 h)

lemma cashInv_closeAllGo (bt : Backtester) (t price : ℚ) (reason : String) :
    ∀ (n : Nat) (st : EngineState), CashInv bt st →
      CashInv bt (closeAllGo t price reason n st) := by
  intro n
  induction n with
  | zero => intro st h; exact h
  | succ m ih =>
    intro st h
    rw [closeAllGo]
    split
    · exact h
    · exact ih _ (cashInv_close_position bt st 0 t price reason h)

lemma cashInv_close_all (bt : Backtester) (t price : ℚ) (reason : String)
    (st : EngineState) (h : CashInv bt st) :
    CashInv bt (close_all_positions t price reason st) :=
  cashInv_closeAllGo bt t price reason _ st h

lemma bookkeepBar_capital (p : ℚ) (s : EngineState) :
    (bookkeepBar p s).current_capital = s.current_capital := by
  simp only [bookkeepBar]
  split <;> rfl

lemma bookkeepBar_trades (p : ℚ) (s : EngineState) :
    (bookkeepBar p s).trades = s.trades := by
  simp only [bookkeepBar]
  split <;> rfl

lemma bookkeepBar_open (p : ℚ) (s : EngineState) :
    (bookkeepBar p s).open_positions = s.open_positions := by
  simp only [bookkeepBar]
  split <;> rfl

lemma bookkeepBar_equity (p : ℚ) (s : EngineState) :
    (bookkeepBar p s).equity_curve =
      s.equity_curve ++ [s.current_capital + calculate_unrealized_pnl p s] := by
  simp only [bookkeepBar]
  split <;> rfl

lemma processBar_ok_shape (strategyF : StrategyFn) (indF : IndicatorFn)
    (cfg : Config) (bars : List Bar) (st : EngineState) (i : Nat) (st' : EngineState)
    (h : processBar strategyF indF cfg bars st i = .ok st') :
    ∃ st2 : EngineState,
      st' = bookkeepBar (bars.getD i default).close st2 ∧
      (st2 = update_open_positions (bars.getD i default).timestamp
               (bars.getD i default).close st ∨
       ∃ ind sd,
         indF (bars.take (i + 1)) cfg = .ok ind ∧
         strategyF (bars.take (i + 1)) ind = .ok sd ∧
         st2 = process_signal cfg sd (bars.getD i default).timestamp
                 (bars.getD i default).close ind
                 (update_open_positions (bars.getD i default).timestamp
                   (bars.getD i default).close st)) := by
  rw [processBar] at h
  cases hind : indF (bars.take (i + 1)) cfg with
  | error e => rw [hind] at h; simp [Bind.bind, Except.bind] at h
  | ok ind =>
    rw [hind] at h
    simp only [Bind.bind, Except.bind] at h
    split at h
    · cases hstrat : strategyF (bars.take (i + 1)) ind with
      | error e => rw [hstrat] at h; simp [Except.bind] at h
      | ok sd =>
        rw [hstrat] at h
        simp only [Except.bind, pure, Except.pure, Except.ok.injEq] at h
        by_cases hsig : sd.signal ∈ ["BUY", "SELL"]
        · refine ⟨_, ?_, Or.inr ⟨ind, sd, rfl, hstrat, rfl⟩⟩
          rw [← h]
          simp [hsig]
        · refine ⟨_, ?_, Or.inl rfl⟩
          rw [← h]
          simp [hsig]
    · simp only [pure, Except.pure, Except.ok.injEq] at h
      exact ⟨_, h.symm, Or.inl rfl⟩

/-! ### Generic `foldlM` reasoning over the `Except`-valued loop -/

lemma foldlM_ok_induct (P : EngineState → Prop)
    (f : EngineState → Nat → Except String EngineState) :
    ∀ (l : List Nat) (st0 st1 : EngineState),
      (∀ st i st', i ∈ l → P st → f st i = .ok st' → P st') →
      P st0 → l.foldlM f st0 = .ok st1 → P st1 := by
  intro l
  induction l with
  | nil =>
    intro st0 st1 _ h0 hfold
    simp only [List.foldlM_nil, pure, Except.pure, Except.ok.injEq] at hfold
    exact hfold ▸ h0
  | cons x xs ih =>
    intro st0 st1 hstep h0 hfold
    rw [List.foldlM_cons] at hfold
    cases hx : f st0 x with
    | error e => rw [hx] at hfold; simp [Bind.bind, Except.bind] at hfold
    | ok s =>
      rw [hx] at hfold
      simp only [Bind.bind, Except.bind] at hfold
      exact ih s st1 (fun st i st' hi => hstep st i st' (List.mem_cons_of_mem x hi))
        (hstep st0 x s (List.mem_cons_self x xs) h0 hx) hfold

lemma foldlM_ok_total (f : EngineState → Nat → Except String EngineState)
    (hf : ∀ st i, ∃ st', f st i = .ok st') :
    ∀ (l : List Nat) (st0 : EngineState), ∃ st1, l.foldlM f st0 = .ok st1 := by
  intro l
  induction l with
  | nil => intro st0; exact ⟨st0, rfl⟩
  | cons x xs ih =>
    intro st0
    obtain ⟨s, hs⟩ := hf st0 x
    obtain ⟨st1, h1⟩ := ih s
    exact ⟨st1, by rw [List.foldlM_cons, hs]; simpa [Bind.bind, Except.bind] using h1⟩

lemma simUpTo_succ (strategyF : StrategyFn) (indF : IndicatorFn) (cfg : Config)
    (bars : List Bar) (st0 : EngineState) (k : Nat) :
    simUpTo strategyF indF cfg bars st0 (k + 1) =
      (simUpTo strategyF indF cfg bars st0 k).bind
        (fun st => processBar strategyF indF cfg bars st
          (cfg.min_lookback_period + k)) := by
  rw [simUpTo, simUpTo, List.range'_1_concat, List.foldlM_append]
  cases (List.range' cfg.min_lookback_period k).foldlM
      (processBar strategyF indF cfg bars) st0 with
  | error e => rfl
  | ok s =>
    simp only [Bind.bind, Except.bind]
    cases hpb : processBar strategyF indF cfg bars s (cfg.min_lookback_period + k) with
    | error e => simp [List.foldlM_cons, hpb, Bind.bind, Except.bind]
    | ok v => simp [List.foldlM_cons, hpb, Bind.bind, Except.bind, pure, Except.pure]

lemma simUpTo_ok_induct (P : EngineState → Prop) (strategyF : StrategyFn)
    (indF : IndicatorFn) (cfg : Config) (bars : List Bar)
    (hstep : ∀ st i st', i < bars.length → P st →
      processBar strategyF indF cfg bars st i = .ok st' → P st')
    (k : Nat) (st0 st1 : EngineState)
    (hk : cfg.min_lookback_period + k ≤ bars.length)
    (h0 : P st0) (hrun : simUpTo strategyF indF cfg bars st0 k = .ok st1) : P st1 := by
  refine foldlM_ok_induct P _ _ st0 st1 (fun st i st' hi => hstep st i st' ?_) h0 hrun
  have := List.mem_range'_1.mp hi
  omega

/-! ### The cash invariant along the simulation -/

lemma cashInv_processBar (bt : Backtester) (strategyF : StrategyFn)
    (indF : IndicatorFn) (cfg : Config) (bars : List Bar) (st : EngineState)
    (i : Nat) (st' : EngineState) (hp : (bars.getD i default).close ≠ 0)
    (h : processBar strategyF indF cfg bars st i = .ok st')
    (hc : CashInv bt st) : CashInv bt st' := by
  obtain ⟨st2, hst', hcases⟩ := processBar_ok_shape strategyF indF cfg bars st i st' h
  have hc2 : CashInv bt st2 := by
    rcases hcases with h1 | ⟨ind, sd, _, _, h1⟩
    · exact h1 ▸ cashInv_update bt _ _ st hc
    · exact h1 ▸ cashInv_process_signal bt cfg sd _ _ ind _ hp
        (cashInv_update bt _ _ st hc)
  rw [hst']
  simp only [CashInv, bookkeepBar_capital, bookkeepBar_trades, bookkeepBar_open]
  exact hc2

lemma cashInv_simUpTo (bt : Backtester) (prior : EngineState)
    (strategyF : StrategyFn) (indF : IndicatorFn) (cfg : Config) (bars : List Bar)
    (hpos : ∀ b ∈ bars, 0 < b.close) (k : Nat) (st' : EngineState)
    (hk : cfg.min_lookback_period + k ≤ bars.length)
    (hrun : simUpTo strategyF indF cfg bars (init_backtest bt prior) k = .ok st') :
    CashInv bt st' := by
  refine simUpTo_ok_induct (CashInv bt) strategyF indF cfg bars ?_ k _ st' hk
    (cashInv_init bt prior) hrun
  intro st i st2 hi hinv hpb
  have hmem : bars.getD i default ∈ bars := mem_of_getD bars i hi
  exact cashInv_processBar bt strategyF indF cfg bars st i st2
    (ne_of_gt (hpos _ hmem)) hpb hinv

/-! ### Concrete-input helper lemmas -/

lemma constBars_length (n : Nat) (p : ℚ) : (constBars n p).length = n := by
  rw [constBars, List.length_map, List.length_range]

lemma constBars_getD (n : Nat) (p : ℚ) (i : Nat) (h : i < n) :
    (constBars n p).getD i default = { timestamp := (i : ℚ), close := p } := by
  rw [constBars, List.getD_eq_getElem?_getD, List.getElem?_map, List.getElem?_range h]
  rfl

lemma constBars_close_pos (n : Nat) (p : ℚ) (hp : 0 < p) :
    ∀ b ∈ constBars n p, 0 < b.close := by
  intro b hb
  obtain ⟨k, _, rfl⟩ := List.mem_map.mp hb
  exact hp

lemma update_empty (t price : ℚ) (st : EngineState) (h : st.open_positions = []) :
    update_open_positions t price st = st := by
  simp [update_open_positions, positionsToClose, h]

/-- The trade opened at bar 98 of the concrete C1 run (price 100, ATR 2,
confidence 1): notional 1000, quantity 10, slippage-adjusted entry
100.05, stop 96, target 108. -/
def c1trade : BacktestTrade :=
  { entry_time := 98
    exit_time := none
    symbol := "UNKNOWN"
    side := "BUY"
    entry_price := 2001/20
    exit_price := none
    quantity := 10
    stop_loss := 96
    take_profit := 108
    pnl := none
    pnl_pct := none
    strategy := "BuyOnce"
    status := "OPEN"
    exit_reason := "" }

/-- The engine state right after bar 98 of the concrete C1 run: the cash
ledger was debited the notional 1000 plus entry commission 1, and the
equity sample 8998.5 books only cash + unrealized pnl. -/
def c1state : EngineState :=
  { trades := []
    equity_curve := [10000, 17997/2]
    drawdown_curve := [0, 2003/20000]
    daily_returns := [-2003/20000]
    current_capital := 8999
    peak_capital := 10000
    open_positions := [c1trade] }

/-- The single simulated bar of the concrete C1 run evaluates to
`c1state`. -/
lemma c1state_run :
    simUpTo (buyAtLen 99) atr2Indicators { min_lookback_period := 98 }
      (constBars 100 100) (init_backtest {} default) 1 = .ok c1state := by
  have hbar : (constBars 100 100).getD 98 default =
      { timestamp := 98, close := 100 } := by
    rw [constBars_getD 100 100 98 (by norm_num)]
    norm_num
  rw [simUpTo]
  have hr : List.range' 98 1 = [98] := rfl
  rw [hr, List.foldlM_cons, processBar, hbar]
  norm_num [atr2Indicators, Bind.bind, Except.bind, init_backtest, update_empty,
    constBars_length, List.length_take, buyAtLen, process_signal,
    bookkeepBar, calculate_unrealized_pnl, commissionRate, slippageRate,
    c1state, c1trade, List.foldlM_nil, pure, Except.pure]

/-- C1 counterexample: on the concrete run (initial capital 10000,
constant price 100, lookback 98 over 100 bars, one BUY at bar 98 that
stays open), the equity sample recorded at bar 98 is 8998.5, while
`initial_capital + realized + unrealized = 10000 + 0 - 0.5 = 9999.5`:
the spec's conservation formula fails by the open position's notional
plus entry commission. -/
theorem c1_counterexample :
    ¬ conservation_claim {} (buyAtLen 99) atr2Indicators
        { min_lookback_period := 98 } (constBars 100 100) := by
  intro h
  have h0 := h 0 c1state (by simp [constBars_length]) c1state_run
  rw [constBars_getD 100 100 98 (by norm_num)] at h0
  revert h0
  norm_num [c1state, c1trade, sumBy, unrealOne]

/-- C1, amended: at every processed bar the recorded equity sample equals
the initial capital, plus the net cash flow (exit credit minus entry
debit, the entry debit being raw notional plus entry commission) of every
trade closed so far, plus, for every still-open position, its unrealized
pnl at the bar's close price minus its entry debit.  The claim's formula
overstates equity by `notional + entry commission` for each open position
(and mis-books entry slippage and entry commission for each closed one):
`_process_signal` debits the full notional plus entry commission from
cash, while neither the recorded `pnl` nor `_calculate_unrealized_pnl`
ever adds the notional back or charges the entry commission. -/
theorem c1_amended_equity_accounting (bt : Backtester) (prior : EngineState)
    (strategyF : StrategyFn) (indF : IndicatorFn) (cfg : Config) (bars : List Bar)
    (k : Nat) (st' : EngineState)
    (hpos : ∀ b ∈ bars, 0 < b.close)
    (hk : cfg.min_lookback_period + k < bars.length)
    (hrun : simUpTo strategyF indF cfg bars (init_backtest bt prior) (k + 1) = .ok st') :
    st'.equity_curve.getLastD 0 =
      bt.initial_capital + sumBy netCashFlow st'.trades
        + sumBy (fun tr =>
            unrealOne (bars.getD (cfg.min_lookback_period + k) default).close tr
              - entryDebit tr) st'.open_positions := by
  rw [simUpTo_succ] at hrun
  cases hk0 : simUpTo strategyF indF cfg bars (init_backtest bt prior) k with
  | error e => rw [hk0] at hrun; simp [Except.bind] at hrun
  | ok stk =>
    rw [hk0] at hrun
    simp only [Except.bind] at hrun
    have hcash : CashInv bt stk :=
      cashInv_simUpTo bt prior strategyF indF cfg bars hpos k stk (by omega) hk0
    obtain ⟨st2, hst', hcases⟩ :=
      processBar_ok_shape strategyF indF cfg bars stk _ st' hrun
    have hp : (bars.getD (cfg.min_lookback_period + k) default).close ≠ 0 :=
      ne_of_gt (hpos _ (mem_of_getD bars _ (by omega)))
    have hc2 : CashInv bt st2 := by
      rcases hcases with h1 | ⟨ind, sd, _, _, h1⟩
      · exact h1 ▸ cashInv_update bt _ _ stk hcash
      · exact h1 ▸ cashInv_process_signal bt cfg sd _ _ ind _ hp
          (cashInv_update bt _ _ stk hcash)
    rw [hst', bookkeepBar_equity, bookkeepBar_trades, bookkeepBar_open,
      List.getLastD_concat, unrealized_eq_sumBy]
    simp only [CashInv] at hc2
    rw [hc2, sumBy_sub]
    ring

/-- Witness for the amended C1 theorem at the concrete run of the
counterexample. -/
theorem c1_amended_witness :
    c1state.equity_curve.getLastD 0 =
      ({} : Backtester).initial_capital + sumBy netCashFlow c1state.trades
        + sumBy (fun tr =>
            unrealOne ((constBars 100 100).getD
              (({ min_lookback_period := 98 } : Config).min_lookback_period + 0)
              default).close tr - entryDebit tr) c1state.open_positions :=
  c1_amended_equity_accounting {} default (buyAtLen 99) atr2Indicators
    { min_lookback_period := 98 } (constBars 100 100) 0 c1state
    (constBars_close_pos 100 100 (by norm_num))
    (by simp [constBars_length]) c1state_run

lemma run_backtest_error_of_first_bar (bt : Backtester) (prior : EngineState)
    (name : String) (strategyF : StrategyFn) (indF : IndicatorFn)
    (fsqrt : ℚ → ℚ) (fpow : ℚ → ℚ → ℚ) (bars : List Bar) (cfg : Config)
    (e : String)
    (hlen : ¬ bars.length < 100)
    (hiter : cfg.min_lookback_period < bars.length)
    (hpb : processBar strategyF indF cfg bars (init_backtest bt prior)
      cfg.min_lookback_period = .error e) :
    run_backtest bt prior name strategyF indF fsqrt fpow bars cfg none none
      = .error e := by
  have hsplit : bars.length - cfg.min_lookback_period =
      (bars.length - cfg.min_lookback_period - 1) + 1 := by omega
  have hsim : run_simulation strategyF indF cfg bars (init_backtest bt prior)
      = .error e := by
    rw [run_simulation, hsplit]
    have hcons : List.range' cfg.min_lookback_period
        ((bars.length - cfg.min_lookback_period - 1) + 1) =
        cfg.min_lookback_period :: List.range' (cfg.min_lookback_period + 1)
          (bars.length - cfg.min_lookback_period - 1) := rfl
    rw [hcons, List.foldlM_cons, hpb]
    rfl
  rw [run_backtest]
  simp only [Option.isSome_none, Bool.or_self, Bool.false_eq_true, if_false,
    if_neg hlen, hsim]
  rfl

/-- An indicator calculator that raises on every invocation. -/
def failingIndicators (msg : String) : IndicatorFn := fun _ _ => .error msg

/-- C2, amended: there is no per-bar recovery — an exception raised by the
Indicator Calculator, or by the Strategy, at the first simulated bar
propagates out of the simulation loop unchanged and aborts the whole
`run_backtest` call with that error; no report (and no equity/drawdown
sample for that bar) is produced. -/
theorem c2_amended (bt : Backtester) (prior : EngineState) (name : String)
    (strategyF : StrategyFn) (indF : IndicatorFn) (fsqrt : ℚ → ℚ)
    (fpow : ℚ → ℚ → ℚ) (bars : List Bar) (cfg : Config) (e : String)
    (hlen : ¬ bars.length < 100)
    (hiter : cfg.min_lookback_period < bars.length) :
    (indF (bars.take (cfg.min_lookback_period + 1)) cfg = .error e →
      run_backtest bt prior name strategyF indF fsqrt fpow bars cfg none none
        = .error e) ∧
    (∀ ind, indF (bars.take (cfg.min_lookback_period + 1)) cfg = .ok ind →
      strategyF (bars.take (cfg.min_lookback_period + 1)) ind = .error e →
      run_backtest bt prior name strategyF indF fsqrt fpow bars cfg none none
        = .error e) := by
  have hguard : cfg.min_lookback_period ≤
      (bars.take (cfg.min_lookback_period + 1)).length := by
    rw [List.length_take]
    omega
  constructor
  · intro hind
    apply run_backtest_error_of_first_bar bt prior name strategyF indF fsqrt fpow
      bars cfg e hlen hiter
    rw [processBar, hind]
    rfl
  · intro ind hind hstrat
    apply run_backtest_error_of_first_bar bt prior name strategyF indF fsqrt fpow
      bars cfg e hlen hiter
    rw [processBar, hind]
    simp only [Bind.bind, Except.bind, if_pos hguard, hstrat]

/-- Witness for the amended C2 theorem: a run whose indicator calculator
raises aborts with that exact error. -/
theorem c2_witness :
    run_backtest {} default "s" holdStrategy (failingIndicators "atr failed")
      (fun _ => 0) (fun _ _ => 0) (constBars 100 100)
      { min_lookback_period := 98 } none none = .error "atr failed" :=
  (c2_amended {} default "s" holdStrategy (failingIndicators "atr failed")
    (fun _ => 0) (fun _ _ => 0) (constBars 100 100) { min_lookback_period := 98 }
    "atr failed" (by simp [constBars_length]) (by simp [constBars_length])).1 rfl

/-! ### C3 -/

/-- The exact exception message of the hard-coded insufficient-data check. -/
def insufficientMsg : String :=
  "Insufficient data for backtesting (minimum 100 data points required)"

/-- C3 counterexample: 60 bars satisfy the default `min_lookback_period`
of 50, yet `run_backtest` still aborts with the insufficient-data error —
the check is a hard-coded `len(data) < 100`, not `min_lookback_period`. -/
theorem c3_counterexample :
    ({} : Config).min_lookback_period ≤ (constBars 60 100).length ∧
    run_backtest {} default "s" holdStrategy atr2Indicators (fun _ => 0)
      (fun _ _ => 0) (constBars 60 100) {} none none = .error insufficientMsg := by
  constructor
  · rw [constBars_length]
    norm_num
  · rw [run_backtest]
    simp only [Option.isSome_none, Bool.or_self, Bool.false_eq_true, if_false,
      constBars_length]
    rfl

lemma processBar_total (strategyF : StrategyFn) (indF : IndicatorFn)
    (cfg : Config) (bars : List Bar)
    (hind : ∀ d c, ∃ v, indF d c = .ok v)
    (hstrat : ∀ d ind, ∃ s, strategyF d ind = .ok s) :
    ∀ st i, ∃ st', processBar strategyF indF cfg bars st i = .ok st' := by
  intro st i
  obtain ⟨ind, hi⟩ := hind (bars.take (i + 1)) cfg
  cases hpb : processBar strategyF indF cfg bars st i with
  | ok v => exact ⟨v, rfl⟩
  | error e =>
    exfalso
    rw [processBar, hi] at hpb
    by_cases hg : cfg.min_lookback_period ≤ (bars.take (i + 1)).length
    · obtain ⟨sd, hs⟩ := hstrat (bars.take (i + 1)) ind
      rw [show (Except.ok ind : Except String Indicators) >>= _ = _ from rfl] at hpb
      simp only [Bind.bind, Except.bind, if_pos hg, hs, pure, Except.pure] at hpb
      exact Except.noConfusion hpb
    · simp only [Bind.bind, Except.bind, if_neg hg, pure, Except.pure] at hpb
      exact Except.noConfusion hpb

lemma run_simulation_total (strategyF : StrategyFn) (indF : IndicatorFn)
    (cfg : Config) (bars : List Bar) (st0 : EngineState)
    (hind : ∀ d c, ∃ v, indF d c = .ok v)
    (hstrat : ∀ d ind, ∃ s, strategyF d ind = .ok s) :
    ∃ st', run_simulation strategyF indF cfg bars st0 = .ok st' := by
  obtain ⟨stN, hN⟩ := foldlM_ok_total _
    (processBar_total strategyF indF cfg bars hind hstrat)
    (List.range' cfg.min_lookback_period (bars.length - cfg.min_lookback_period)) st0
  cases hrs : run_simulation strategyF indF cfg bars st0 with
  | ok v => exact ⟨v, rfl⟩
  | error e =>
    exfalso
    rw [run_simulation, hN] at hrs
    simp [Bind.bind, Except.bind, pure, Except.pure] at hrs

/-- C3, amended: with collaborators that never raise, `run_backtest`
aborts with the insufficient-data error exactly when the (date-filtered)
bar sequence has fewer than 100 bars — a hard-coded threshold,
independent of `min_lookback_period` (whose default is 50). -/
theorem c3_amended (bt : Backtester) (prior : EngineState) (name : String)
    (strategyF : StrategyFn) (indF : IndicatorFn) (fsqrt : ℚ → ℚ)
    (fpow : ℚ → ℚ → ℚ) (data0 : List Bar) (cfg : Config)
    (start_date end_date : Option ℚ)
    (hind : ∀ d c, ∃ v, indF d c = .ok v)
    (hstrat : ∀ d ind, ∃ s, strategyF d ind = .ok s) :
    (run_backtest bt prior name strategyF indF fsqrt fpow data0 cfg
        start_date end_date = .error insufficientMsg)
    ↔ (if start_date.isSome || end_date.isSome then
        filter_data_by_date data0 start_date end_date else data0).length < 100 := by
  by_cases hl : (if start_date.isSome || end_date.isSome then
      filter_data_by_date data0 start_date end_date else data0).length < 100
  · simp only [hl, iff_true]
    rw [run_backtest, if_pos hl]
    rfl
  · simp only [hl, iff_false]
    intro hcontra
    rw [run_backtest, if_neg hl] at hcontra
    obtain ⟨stF, hF⟩ := run_simulation_total strategyF indF cfg
      (if start_date.isSome || end_date.isSome then
        filter_data_by_date data0 start_date end_date else data0)
      (init_backtest bt prior) hind hstrat
    simp only [hF, Bind.bind, Except.bind, pure, Except.pure] at hcontra
    exact Except.noConfusion hcontra

/-- Witness for the amended C3 theorem at a concrete 60-bar input. -/
theorem c3_witness :
    (run_backtest {} default "s" holdStrategy atr2Indicators (fun _ => 0)
        (fun _ _ => 0) (constBars 60 100) {} none none = .error insufficientMsg)
    ↔ (if (none : Option ℚ).isSome || (none : Option ℚ).isSome then
        filter_data_by_date (constBars 60 100) none none
      else constBars 60 100).length < 100 :=
  c3_amended {} default "s" holdStrategy atr2Indicators (fun _ => 0) (fun _ _ => 0)
    (constBars 60 100) {} none none
    (fun _ _ => ⟨{ atr := some 2 }, rfl⟩)
    (fun _ _ => ⟨{ signal := "HOLD", confidence := 0, strategy := "Hold" }, rfl⟩)

/-! ### C4 -/

/-- The state produced by one accepted BUY signal at raw price 100 with
ATR 2 under the default config (notional 1000, confidence 1). -/
def c4state : EngineState :=
  process_signal {} { signal := "BUY", confidence := 1, strategy := "s" } 0 100
    { atr := some 2 } (init_backtest {} default)

/-- C4 counterexample: the opened trade records the slippage-adjusted
entry 100.05 but stop 96 and target 108, which are computed from the raw
close price 100 — not from the entry price as the claim states
(100.05 − 2×2 = 96.05 ≠ 96 and 100.05 + 2×2×2 = 108.05 ≠ 108). -/
theorem c4_counterexample :
    c4state.open_positions.map
      (fun p => (p.entry_price, p.stop_loss, p.take_profit)) =
      [(2001/20, 96, 108)] ∧
    ¬ (96 : ℚ) = 2001/20 - 2 * 2 ∧ ¬ (108 : ℚ) = 2001/20 + 2 * 2 * 2 := by
  refine ⟨?_, by norm_num, by norm_num⟩
  norm_num [c4state, process_signal, init_backtest, commissionRate, slippageRate]

/-- C4, amended: for every accepted signal, the stop and the take-profit
are computed from the *raw* current close price — BUY:
`stop = price − atr × atr_multiplier`,
`take = price + atr × atr_multiplier × reward_risk_ratio`, mirrored for
SELL — with `atr` the 'atr' indicator, falling back to 2% of price when
absent, while the recorded `entry_price` is the slippage-adjusted fill
price (inflated for BUY, deflated otherwise). -/
theorem c4_amended_stop_take (cfg : Config) (sd : SignalData)
    (current_time current_price : ℚ) (ind : Indicators) (st : EngineState)
    (hmin : ¬ st.current_capital * cfg.max_position_size * sd.confidence < 100)
    (hcap : ¬ st.current_capital * cfg.max_position_size * sd.confidence
        + st.current_capital * cfg.max_position_size * sd.confidence * commissionRate
        > st.current_capital) :
    process_signal cfg sd current_time current_price ind st =
      { st with
        current_capital := st.current_capital -
          (st.current_capital * cfg.max_position_size * sd.confidence
            + st.current_capital * cfg.max_position_size * sd.confidence
                * commissionRate)
        open_positions := st.open_positions ++
          [{ entry_time := current_time
             exit_time := none
             symbol := cfg.symbol
             side := sd.signal
             entry_price :=
               if sd.signal = "BUY" then current_price * (1 + slippageRate)
               else current_price * (1 - slippageRate)
             exit_price := none
             quantity := st.current_capital * cfg.max_position_size * sd.confidence
               / current_price
             stop_loss :=
               if sd.signal = "BUY" then
                 current_price - ind.atr.getD (current_price * (2/100))
                   * cfg.atr_multiplier
               else
                 current_price + ind.atr.getD (current_price * (2/100))
                   * cfg.atr_multiplier
             take_profit :=
               if sd.signal = "BUY" then
                 current_price + ind.atr.getD (current_price * (2/100))
                   * cfg.atr_multiplier * cfg.reward_risk_ratio
               else
                 current_price - ind.atr.getD (current_price * (2/100))
                   * cfg.atr_multiplier * cfg.reward_risk_ratio
             pnl := none
             pnl_pct := none
             strategy := sd.strategy
             status := "OPEN"
             exit_reason := "" }] } := by
  simp only [process_signal]
  rw [if_neg hmin, if_neg hcap]

/-- Witness for the amended C4 theorem at the concrete BUY input. -/
theorem c4_witness :
    (process_signal {} { signal := "BUY", confidence := 1, strategy := "s" } 0 100
      { atr := some 2 } (init_backtest {} default)).open_positions.map
        (fun p => (p.stop_loss, p.take_profit)) = [(96, 108)] := by
  rw [c4_amended_stop_take {} { signal := "BUY", confidence := 1, strategy := "s" }
    0 100 { atr := some 2 } (init_backtest {} default)
    (by norm_num [init_backtest]) (by norm_num [init_backtest, commissionRate])]
  norm_num [init_backtest]

/-! ### Characterization of the per-bar position update -/

/-- Boolean form of "this position closes at this price". -/
def closableB (price : ℚ) (p : BacktestTrade) : Bool :=
  (exitReasonFor price p).isSome

lemma ptc_concat (price : ℚ) (l : List BacktestTrade) (p : BacktestTrade) :
    positionsToClose price (l ++ [p]) =
      positionsToClose price l ++
        (match exitReasonFor price p with
         | some r => [(l.length, r)]
         | none => []) := by
  rw [positionsToClose, positionsToClose, enum_concat, List.filterMap_append]
  cases h : exitReasonFor price p <;> simp [List.filterMap, h]

lemma updateFold_split (t price : ℚ) :
    ∀ (l suffix : List BacktestTrade) (st : EngineState),
      st.open_positions = l ++ suffix →
      ((positionsToClose price l).reverse).foldl
        (fun s pr => close_position s pr.1 t price pr.2) st =
        { st with
          current_capital := st.current_capital +
            ((l.filter (closableB price)).map (fun p => exitCredit p price)).sum
          trades := st.trades ++
            (l.filter (closableB price)).reverse.map
              (fun p => settledTrade p t price ((exitReasonFor price p).getD ""))
          open_positions := (l.filter (fun p => ! closableB price p)) ++ suffix } := by
  intro l
  induction l using List.reverseRecOn with
  | nil =>
    intro suffix st hst
    simp only [positionsToClose, List.enum_nil, List.filterMap_nil,
      List.reverse_nil, List.foldl_nil, List.filter_nil, List.map_nil,
      List.sum_nil, List.append_nil, List.nil_append, add_zero]
    cases st
    simp_all
  | append_singleton l' p ih =>
    intro suffix st hst
    have hst' : st.open_positions = l' ++ p :: suffix := by
      rw [hst, List.append_assoc, List.singleton_append]
    rw [ptc_concat]
    cases hcl : exitReasonFor price p with
    | some r =>
      rw [List.reverse_append, List.reverse_singleton, List.singleton_append,
        List.foldl_cons]
      have hget : st.open_positions.get? l'.length = some p := by
        rw [hst']
        exact get?_append_cons l' p suffix
      have hclose : close_position st l'.length t price r =
          { st with
            current_capital := st.current_capital + exitCredit p price
            trades := st.trades ++ [settledTrade p t price r]
            open_positions := l' ++ suffix } := by
        rw [close_position, hget]
        rw [hst', eraseIdx_append_cons]
      rw [hclose, ih suffix _ rfl]
      cases st
      simp_all [closableB, List.filter_append, hcl]
      ring
    | none =>
      simp only [List.append_nil]
      rw [ih (p :: suffix) st hst']
      cases st
      simp_all [closableB, List.filter_append, hcl]

lemma update_char (t price : ℚ) (st : EngineState) :
    update_open_positions t price st =
      { st with
        current_capital := st.current_capital +
          ((st.open_positions.filter (closableB price)).map
            (fun p => exitCredit p price)).sum
        trades := st.trades ++
          (st.open_positions.filter (closableB price)).reverse.map
            (fun p => settledTrade p t price ((exitReasonFor price p).getD ""))
        open_positions := st.open_positions.filter (fun p => ! closableB price p) } := by
  have h := updateFold_split t price st.open_positions [] st (by simp)
  rw [update_open_positions] at *
  simpa using h

/-! ### C5 -/

/-- First-opened position of the C5 counterexample (take-profit 90, so it
closes at price 100). -/
def c5posA : BacktestTrade :=
  { entry_time := 1
    exit_time := none
    symbol := "S"
    side := "BUY"
    entry_price := 100
    exit_price := none
    quantity := 1
    stop_loss := 10
    take_profit := 90
    pnl := none
    pnl_pct := none
    strategy := "s"
    status := "OPEN"
    exit_reason := "" }

/-- Second-opened position, identical but opened later. -/
def c5posB : BacktestTrade := { c5posA with entry_time := 2 }

/-- A state with two open positions that both close on the same bar. -/
def c5state : EngineState :=
  { init_backtest {} default with open_positions := [c5posA, c5posB] }

/-- C5 counterexample: both positions close on the same bar, and the
completed-trade list receives them in *reverse* insertion order
([entry_time 2, entry_time 1]), not in insertion order — the loop closes
collected indices in reversed order to keep them valid. -/
theorem c5_counterexample :
    ((update_open_positions 5 100 c5state).trades.map (fun tr => tr.entry_time)
      = [2, 1]) ∧
    ¬ ((update_open_positions 5 100 c5state).trades.map (fun tr => tr.entry_time)
      = [1, 2]) := by
  have h : (update_open_positions 5 100 c5state).trades.map (fun tr => tr.entry_time)
      = [2, 1] := by
    rw [update_char]
    norm_num [c5state, c5posA, c5posB, closableB, exitReasonFor, settledTrade,
      init_backtest]
  refine ⟨h, ?_⟩
  rw [h]
  norm_num

/-- C5, amended: when the per-bar update closes several open positions on
the same bar, the closed trades are appended to the completed-trade list
in *reverse* open-position insertion order (the collected closure indices
are applied in reversed order, "reverse order to maintain indices"). -/
theorem c5_amended_closure_order (current_time current_price : ℚ)
    (st : EngineState) :
    (update_open_positions current_time current_price st).trades =
      st.trades ++
        (st.open_positions.filter (closableB current_price)).reverse.map
          (fun p => settledTrade p current_time current_price
            ((exitReasonFor current_price p).getD "")) := by
  rw [update_char]

/-! ### C6 -/

/-- C6: the per-bar update closes an open BUY position exactly when the
bar's close is at or below its stop (reason STOP_LOSS) or at or above its
target (reason TAKE_PROFIT, checked only when the stop did not fire),
mirrored for SELL; the surviving open set is exactly the non-closable
positions; the exit price carries slippage in the direction unfavorable
to the position (opposite convention from entry); the realized pnl is the
directional price delta times quantity minus the exit commission; and the
capital is credited `quantity × exit_price − commission` for each closed
position. -/
theorem c6_exit_rule_settlement (current_time current_price : ℚ)
    (st : EngineState) (pos : BacktestTrade) (reason : String) :
    ((exitReasonFor current_price pos).isSome ↔
      (pos.side = "BUY" ∧
        (current_price ≤ pos.stop_loss ∨ current_price ≥ pos.take_profit)) ∨
      (pos.side ≠ "BUY" ∧
        (current_price ≥ pos.stop_loss ∨ current_price ≤ pos.take_profit))) ∧
    (exitReasonFor current_price pos = some "STOP_LOSS" ↔
      (if pos.side = "BUY" then current_price ≤ pos.stop_loss
       else current_price ≥ pos.stop_loss)) ∧
    (exitReasonFor current_price pos = some "TAKE_PROFIT" ↔
      (if pos.side = "BUY" then
        ¬ current_price ≤ pos.stop_loss ∧ current_price ≥ pos.take_profit
       else ¬ current_price ≥ pos.stop_loss ∧ current_price ≤ pos.take_profit)) ∧
    ((update_open_positions current_time current_price st).open_positions =
      st.open_positions.filter (fun p => ! closableB current_price p)) ∧
    ((update_open_positions current_time current_price st).current_capital =
      st.current_capital +
        ((st.open_positions.filter (closableB current_price)).map
          (fun p => exitCredit p current_price)).sum) ∧
    ((settledTrade pos current_time current_price reason).exit_price =
      some (if pos.side = "BUY" then current_price * (1 - slippageRate)
            else current_price * (1 + slippageRate))) ∧
    ((settledTrade pos current_time current_price reason).status = "CLOSED" ∧
      (settledTrade pos current_time current_price reason).exit_reason = reason) ∧
    ((settledTrade pos current_time current_price reason).pnl =
      some ((if pos.side = "BUY"
             then (effective_exit_price pos current_price - pos.entry_price)
               * pos.quantity
             else (pos.entry_price - effective_exit_price pos current_price)
               * pos.quantity)
        - pos.quantity * effective_exit_price pos current_price
          * commissionRate)) ∧
    (exitCredit pos current_price =
      pos.quantity * effective_exit_price pos current_price
        - pos.quantity * effective_exit_price pos current_price
          * commissionRate) := by
  refine ⟨?_, ?_, ?_, ?_, ?_, ?_, ?_, ?_, ?_⟩
  · rw [exitReasonFor]
    split_ifs with hside h1 h2 h3 h4 <;> simp_all
  · rw [exitReasonFor]
    split_ifs with hside h1 h2 h3 h4 <;> simp_all
  · rw [exitReasonFor]
    split_ifs with hside h1 h2 h3 h4 <;> simp_all
  · rw [update_char]
  · rw [update_char]
  · rfl
  · exact ⟨rfl, rfl⟩
  · rfl
  · rfl

/-! ### C7 -/

/-- A trade is fully settled: CLOSED with every exit field populated. -/
def ClosedShape (tr : BacktestTrade) : Prop :=
  tr.status = "CLOSED" ∧ tr.exit_time.isSome ∧ tr.exit_price.isSome ∧
    tr.pnl.isSome ∧ tr.pnl_pct.isSome

lemma closedShape_settled (p : BacktestTrade) (t price : ℚ) (reason : String) :
    ClosedShape (settledTrade p t price reason) := by
  refine ⟨rfl, ?_, ?_, ?_, ?_⟩ <;> rfl

lemma process_signal_trades (cfg : Config) (sd : SignalData)
    (t price : ℚ) (ind : Indicators) (st : EngineState) :
    (process_signal cfg sd t price ind st).trades = st.trades := by
  simp only [process_signal]
  split_ifs <;> rfl

lemma processBar_trades_closed (strategyF : StrategyFn) (indF : IndicatorFn)
    (cfg : Config) (bars : List Bar) (st : EngineState) (i : Nat)
    (st' : EngineState)
    (h : processBar strategyF indF cfg bars st i = .ok st')
    (hP : ∀ tr ∈ st.trades, ClosedShape tr) :
    ∀ tr ∈ st'.trades, ClosedShape tr := by
  obtain ⟨st2, hst', hcases⟩ := processBar_ok_shape strategyF indF cfg bars st i st' h
  have hupd : ∀ tr ∈ (update_open_positions (bars.getD i default).timestamp
      (bars.getD i default).close st).trades, ClosedShape tr := by
    rw [update_char]
    intro tr htr
    rcases List.mem_append.mp htr with h1 | h1
    · exact hP tr h1
    · obtain ⟨p, _, rfl⟩ := List.mem_map.mp h1
      exact closedShape_settled _ _ _ _
  have h2 : ∀ tr ∈ st2.trades, ClosedShape tr := by
    rcases hcases with h1 | ⟨ind, sd, _, _, h1⟩
    · exact h1 ▸ hupd
    · rw [h1, process_signal_trades]
      exact hupd
  rw [hst', bookkeepBar_trades]
  exact h2

lemma closeAllGo_char (t price : ℚ) (reason : String) :
    ∀ (l : List BacktestTrade) (st : EngineState), st.open_positions = l →
      closeAllGo t price reason l.length st =
        { st with
          current_capital := st.current_capital +
            (l.map (fun p => exitCredit p price)).sum
          trades := st.trades ++ l.map (fun p => settledTrade p t price reason)
          open_positions := [] } := by
  intro l
  induction l with
  | nil =>
    intro st hst
    rw [List.length_nil, closeAllGo]
    cases st
    simp_all
  | cons p rest ih =>
    intro st hst
    rw [List.length_cons, closeAllGo]
    have hne : st.open_positions.isEmpty = false := by rw [hst]; rfl
    rw [if_neg (by simp [hne])]
    have hget : st.open_positions.get? 0 = some p := by rw [hst]; rfl
    have hclose : close_position st 0 t price reason =
        { st with
          current_capital := st.current_capital + exitCredit p price
          trades := st.trades ++ [settledTrade p t price reason]
          open_positions := rest } := by
      rw [close_position, hget, hst]
      rfl
    rw [hclose, ih _ rfl]
    cases st
    simp_all
    ring

lemma close_all_char (t price : ℚ) (reason : String) (st : EngineState) :
    close_all_positions t price reason st =
      { st with
        current_capital := st.current_capital +
          (st.open_positions.map (fun p => exitCredit p price)).sum
        trades := st.trades ++
          st.open_positions.map (fun p => settledTrade p t price reason)
        open_positions := [] } := by
  rw [close_all_positions]
  exact closeAllGo_char t price reason st.open_positions st rfl

lemma run_simulation_eq (strategyF : StrategyFn) (indF : IndicatorFn)
    (cfg : Config) (bars : List Bar) (st0 : EngineState) :
    run_simulation strategyF indF cfg bars st0 =
      (simUpTo strategyF indF cfg bars st0
        (bars.length - cfg.min_lookback_period)).map
        (close_all_positions (bars.getLastD default).timestamp
          (bars.getLastD default).close "END_OF_DATA") := by
  rw [run_simulation, simUpTo]
  cases (List.range' cfg.min_lookback_period
      (bars.length - cfg.min_lookback_period)).foldlM
      (processBar strategyF indF cfg bars) st0 <;> rfl

/-- C7: a normally-returning simulation ends with an empty open-position
set; every recorded trade is CLOSED with all exit fields set; and the
final trade list is the mid-run trade list extended by force-closing
every remaining open position with reason END_OF_DATA at the final bar's
timestamp and close price. -/
theorem c7_trade_completeness (strategyF : StrategyFn) (indF : IndicatorFn)
    (cfg : Config) (bars : List Bar) (bt : Backtester) (prior : EngineState)
    (st' : EngineState)
    (hrun : run_simulation strategyF indF cfg bars (init_backtest bt prior)
      = .ok st') :
    st'.open_positions = [] ∧
    (∀ tr ∈ st'.trades, tr.status = "CLOSED" ∧ tr.exit_time.isSome ∧
      tr.exit_price.isSome ∧ tr.pnl.isSome ∧ tr.pnl_pct.isSome) ∧
    ∃ pre, simUpTo strategyF indF cfg bars (init_backtest bt prior)
        (bars.length - cfg.min_lookback_period) = .ok pre ∧
      st'.trades = pre.trades ++ pre.open_positions.map
        (fun p => settledTrade p (bars.getLastD default).timestamp
          (bars.getLastD default).close "END_OF_DATA") := by
  rw [run_simulation_eq] at hrun
  cases hk : simUpTo strategyF indF cfg bars (init_backtest bt prior)
      (bars.length - cfg.min_lookback_period) with
  | error e => rw [hk] at hrun; exact Except.noConfusion hrun
  | ok pre =>
    rw [hk] at hrun
    simp only [Except.map, Except.ok.injEq] at hrun
    have hpre : ∀ tr ∈ pre.trades, ClosedShape tr := by
      refine foldlM_ok_induct (fun s => ∀ tr ∈ s.trades, ClosedShape tr) _ _ _ _
        (fun s i s2 _ hP hpb =>
          processBar_trades_closed strategyF indF cfg bars s i s2 hpb hP) ?_ hk
      intro tr htr
      simp [init_backtest] at htr
    subst hrun
    rw [close_all_char]
    refine ⟨rfl, ?_, pre, rfl, rfl⟩
    intro tr htr
    simp only [] at htr
    rcases List.mem_append.mp htr with h1 | h1
    · exact hpre tr h1
    · obtain ⟨p, _, rfl⟩ := List.mem_map.mp h1
      exact closedShape_settled _ _ _ _

/-- The 2-bar concrete run of the C7 witness: lookback 0, a BUY at the
first bar that never reaches stop or target and is force-closed at the
end of the data. -/
def c7state : EngineState :=
  (run_simulation (buyAtLen 1) atr2Indicators { min_lookback_period := 0 }
    (constBars 2 100) (init_backtest {} default)).toOption.getD default

/-- Witness for C7 at the concrete 2-bar run. -/
theorem c7_witness :
    c7state.open_positions = [] ∧
    (∀ tr ∈ c7state.trades, tr.status = "CLOSED" ∧ tr.exit_time.isSome ∧
      tr.exit_price.isSome ∧ tr.pnl.isSome ∧ tr.pnl_pct.isSome) := by
  have h := c7_trade_completeness (buyAtLen 1) atr2Indicators
    { min_lookback_period := 0 } (constBars 2 100) {} default c7state rfl
  exact ⟨h.1, h.2.1⟩

/-! ### C8 -/

/-- C8: whenever a normally-returning run has an empty completed-trade
list, the Metrics Record is the all-zero `_empty_metrics` record — every
ratio field is 0, not NaN and not an error. -/
theorem c8_metrics_degeneracy (bt : Backtester) (prior : EngineState)
    (name : String) (strategyF : StrategyFn) (indF : IndicatorFn)
    (fsqrt : ℚ → ℚ) (fpow : ℚ → ℚ → ℚ) (data0 : List Bar) (cfg : Config)
    (start_date end_date : Option ℚ) (r : BacktestResults)
    (hrun : run_backtest bt prior name strategyF indF fsqrt fpow data0 cfg
      start_date end_date = .ok r)
    (hempty : r.trades = []) :
    r.metrics = empty_metrics ∧ r.metrics.total_trades = 0 ∧
    r.metrics.win_rate = 0 ∧ r.metrics.profit_factor = 0 ∧
    r.metrics.payoff_ratio = 0 ∧ r.metrics.sharpe_ratio = 0 ∧
    r.metrics.sortino_ratio = 0 ∧ r.metrics.calmar_ratio = 0 ∧
    r.metrics.recovery_factor = 0 := by
  rw [run_backtest] at hrun
  generalize (if start_date.isSome || end_date.isSome then
      filter_data_by_date data0 start_date end_date else data0) = D at hrun
  split at hrun
  · exact Except.noConfusion hrun
  · cases hsim : run_simulation strategyF indF cfg D (init_backtest bt prior) with
    | error e =>
      simp only [hsim, Bind.bind, Except.bind] at hrun
      exact Except.noConfusion hrun
    | ok stF =>
      simp only [hsim, Bind.bind, Except.bind, pure, Except.pure,
        Except.ok.injEq] at hrun
      subst hrun
      simp only [] at hempty
      have htr : stF.trades = [] := by
        simpa using hempty
      have hm : calculate_metrics bt fsqrt fpow D stF = empty_metrics := by
        rw [calculate_metrics, if_pos htr]
      refine ⟨hm, ?_, ?_, ?_, ?_, ?_, ?_, ?_, ?_⟩ <;> rw [hm] <;> rfl

/-- The report of the concrete zero-trade run (hold strategy, lookback 99
over 100 bars). -/
def c8res : BacktestResults :=
  (run_backtest {} default "s" holdStrategy atr2Indicators (fun _ => 0)
    (fun _ _ => 0) (constBars 100 100) { min_lookback_period := 99 }
    none none).toOption.getD default

set_option maxRecDepth 8000 in
/-- Witness for C8 at the concrete zero-trade run. -/
theorem c8_witness :
    c8res.metrics = empty_metrics ∧ c8res.metrics.total_trades = 0 := by
  have h := c8_metrics_degeneracy {} default "s" holdStrategy atr2Indicators
    (fun _ => 0) (fun _ _ => 0) (constBars 100 100) { min_lookback_period := 99 }
    none none c8res rfl rfl
  exact ⟨h.1, h.2.1⟩

/-! ### C9 -/

/-- C9: `run_backtest` is deterministic — with the strategy, the indicator
calculator and the float helpers pure functions of their inputs, the
report does not depend on the mutable object state left by earlier runs
(`_initialize_backtest` overwrites every mutable attribute), so two
invocations on the same `(strategy, bars, config)` yield identical
reports. -/
theorem c9_determinism (bt : Backtester) (prior1 prior2 : EngineState)
    (name : String) (strategyF : StrategyFn) (indF : IndicatorFn)
    (fsqrt : ℚ → ℚ) (fpow : ℚ → ℚ → ℚ) (data0 : List Bar) (cfg : Config)
    (start_date end_date : Option ℚ) :
    run_backtest bt prior1 name strategyF indF fsqrt fpow data0 cfg
      start_date end_date =
    run_backtest bt prior2 name strategyF indF fsqrt fpow data0 cfg
      start_date end_date := rfl

/-! ### C10 -/

/-- The drawdown bookkeeping invariant: positive running peak, non-empty
drawdown series with seed sample 0, and every sample non-negative. -/
def DrawdownInv (st : EngineState) : Prop :=
  0 < st.peak_capital ∧ st.drawdown_curve ≠ [] ∧
    st.drawdown_curve.getD 0 0 = 0 ∧ ∀ d ∈ st.drawdown_curve, 0 ≤ d

lemma bookkeepBar_peak (p : ℚ) (s : EngineState) :
    (bookkeepBar p s).peak_capital =
      if s.current_capital + calculate_unrealized_pnl p s > s.peak_capital
      then s.current_capital + calculate_unrealized_pnl p s
      else s.peak_capital := by
  simp only [bookkeepBar]
  split <;> rfl

lemma bookkeepBar_drawdown (p : ℚ) (s : EngineState) :
    (bookkeepBar p s).drawdown_curve = s.drawdown_curve ++
      [((if s.current_capital + calculate_unrealized_pnl p s > s.peak_capital
          then s.current_capital + calculate_unrealized_pnl p s
          else s.peak_capital)
        - (s.current_capital + calculate_unrealized_pnl p s)) /
        (if s.current_capital + calculate_unrealized_pnl p s > s.peak_capital
          then s.current_capital + calculate_unrealized_pnl p s
          else s.peak_capital)] := by
  simp only [bookkeepBar]
  split <;> rfl

lemma process_signal_peak_drawdown (cfg : Config) (sd : SignalData)
    (t price : ℚ) (ind : Indicators) (st : EngineState) :
    (process_signal cfg sd t price ind st).peak_capital = st.peak_capital ∧
    (process_signal cfg sd t price ind st).drawdown_curve = st.drawdown_curve := by
  simp only [process_signal]
  split_ifs <;> exact ⟨rfl, rfl⟩

lemma drawdownInv_processBar (strategyF : StrategyFn) (indF : IndicatorFn)
    (cfg : Config) (bars : List Bar) (st : EngineState) (i : Nat)
    (st' : EngineState)
    (h : processBar strategyF indF cfg bars st i = .ok st')
    (hP : DrawdownInv st) : DrawdownInv st' := by
  obtain ⟨st2, hst', hcases⟩ := processBar_ok_shape strategyF indF cfg bars st i st' h
  have h2 : st2.peak_capital = st.peak_capital ∧
      st2.drawdown_curve = st.drawdown_curve := by
    rcases hcases with h1 | ⟨ind, sd, _, _, h1⟩
    · rw [h1, update_char]
      exact ⟨rfl, rfl⟩
    · rw [h1]
      have hu := process_signal_peak_drawdown cfg sd
        (bars.getD i default).timestamp (bars.getD i default).close ind
        (update_open_positions (bars.getD i default).timestamp
          (bars.getD i default).close st)
      rw [hu.1, hu.2, update_char]
      exact ⟨rfl, rfl⟩
  obtain ⟨hpk, hne, hseed, hall⟩ := hP
  rw [← h2.1] at hpk
  rw [← h2.2] at hne hseed hall
  set eq := st2.current_capital + calculate_unrealized_pnl (bars.getD i default).close st2 with heq
  have hpk' : 0 < (bookkeepBar (bars.getD i default).close st2).peak_capital := by
    rw [bookkeepBar_peak]
    split
    · exact lt_trans hpk (by assumption)
    · exact hpk
  have hmono : eq ≤ (bookkeepBar (bars.getD i default).close st2).peak_capital := by
    rw [bookkeepBar_peak]
    split
    · exact le_refl _
    · exact le_of_not_lt (by assumption)
  refine ⟨hst' ▸ hpk', ?_, ?_, ?_⟩
  · rw [hst', bookkeepBar_drawdown]
    simp
  · rw [hst', bookkeepBar_drawdown, getD_append_left _ _ _ hne]
    exact hseed
  · rw [hst', bookkeepBar_drawdown]
    intro d hd
    rcases List.mem_append.mp hd with h1 | h1
    · exact hall d h1
    · have hd1 := List.mem_singleton.mp h1
      rw [hd1]
      have hpk2 : (0:ℚ) < (if eq > st2.peak_capital then eq else st2.peak_capital) := by
        split
        · exact lt_trans hpk (by assumption)
        · exact hpk
      have hle : eq ≤ (if eq > st2.peak_capital then eq else st2.peak_capital) := by
        split
        · exact le_refl _
        · exact le_of_not_lt (by assumption)
      exact div_nonneg (by linarith) (le_of_lt hpk2)

/-- C10: every drawdown sample of a normally-returning run is
non-negative, and the seed sample is 0 — the running peak is raised to
the current equity before `(peak − equity)/peak` is computed, so the
numerator is never negative and the (positive) peak never shrinks. -/
theorem c10_drawdown_nonneg (strategyF : StrategyFn) (indF : IndicatorFn)
    (cfg : Config) (bars : List Bar) (bt : Backtester) (prior : EngineState)
    (st' : EngineState)
    (hcap : 0 < bt.initial_capital)
    (hrun : run_simulation strategyF indF cfg bars (init_backtest bt prior)
      = .ok st') :
    st'.drawdown_curve.getD 0 0 = 0 ∧ ∀ d ∈ st'.drawdown_curve, 0 ≤ d := by
  rw [run_simulation_eq] at hrun
  cases hk : simUpTo strategyF indF cfg bars (init_backtest bt prior)
      (bars.length - cfg.min_lookback_period) with
  | error e => rw [hk] at hrun; exact Except.noConfusion hrun
  | ok pre =>
    rw [hk] at hrun
    simp only [Except.map, Except.ok.injEq] at hrun
    have hpre : DrawdownInv pre := by
      refine foldlM_ok_induct DrawdownInv _ _ _ _
        (fun s i s2 _ hP hpb =>
          drawdownInv_processBar strategyF indF cfg bars s i s2 hpb hP) ?_ hk
      refine ⟨by simpa [init_backtest] using hcap, by simp [init_backtest], ?_, ?_⟩
      · simp [init_backtest]
      · simp [init_backtest]
    subst hrun
    rw [close_all_char]
    exact ⟨hpre.2.2.1, hpre.2.2.2⟩

/-- The drawdown-exercising concrete run of the C10 witness: a BUY at the
only simulated bar makes equity drop below the initial peak. -/
def c10state : EngineState :=
  (run_simulation (buyAtLen 1) atr2Indicators { min_lookback_period := 0 }
    (constBars 1 100) (init_backtest {} default)).toOption.getD default

set_option maxRecDepth 8000 in
/-- Witness for C10 at the concrete run. -/
theorem c10_witness :
    c10state.drawdown_curve.getD 0 0 = 0 ∧
    ∀ d ∈ c10state.drawdown_curve, 0 ≤ d :=
  c10_drawdown_nonneg (buyAtLen 1) atr2Indicators { min_lookback_period := 0 }
    (constBars 1 100) {} default c10state (by norm_num) rfl

/-- C2 counterexample: with a strategy that raises at every bar, the whole
run aborts with that exception — no report and no equity/drawdown
bookkeeping for the bar; the bar is not treated as a HOLD. -/
theorem c2_counterexample :
    run_backtest {} default "s" (failingStrategy "boom") atr2Indicators
      (fun _ => 0) (fun _ _ => 0) (constBars 100 100)
      { min_lookback_period := 98 } none none = .error "boom" := by
  have hbar : (constBars 100 100).getD 98 default =
      { timestamp := 98, close := 100 } := by
    rw [constBars_getD 100 100 98 (by norm_num)]
    norm_num
  have hr : List.range' 98 2 = [98, 99] := rfl
  rw [run_backtest]
  norm_num [constBars_length, run_simulation, hr, List.foldlM_cons, List.foldlM_nil,
    processBar, hbar, atr2Indicators, failingStrategy, update_empty, init_backtest,
    List.length_take, Bind.bind, Except.bind, pure, Except.pure]
